import Mathlib

/-!
# MealsApp: the three screens and their catalog lookups

A shallow embedding of `screens/CategoriesScreen.js`, `screens/MealListScreen.js`
and `screens/MealDetailScreen.js`.

* The dataset module `../data/dummy-data` is not among the sources, so the
  arrays `CATEGORIES` and `MEALS` are parameters of every definition that
  reads them.
* A component is a function from its props to what it renders. Calls on the
  `navigation` object and on the console are recorded in an explicit `Env`
  that press handlers and layout effects transform.
* A JavaScript value that may be `undefined` is an `Option`; reading a
  property of `undefined` is the fault `Fault.typeError`.
* Style props are left out of the rendered values.
-/

namespace MealsApp

/-! ## Data model -/

/-- An element of `CATEGORIES`, with the fields the screens read. -/
structure Category where
  id : String
  title : String
  color : String
deriving DecidableEq, Repr

/-- An element of `MEALS`, with the fields the screens read. -/
structure Meal where
  id : String
  categoryIds : List String
  title : String
  imageUrl : String
  duration : Int
  complexity : String
  affordability : String
  ingredients : List String
  steps : List String
deriving DecidableEq, Repr

/-- A parameter bag such as `{ categoryId: "c1" }`: property names with their values. -/
abbrev Params := List (String × String)

/-- The `route` prop: `route.params` is the bag given to `navigation.navigate`. -/
structure Route where
  params : Params
deriving DecidableEq, Repr

/-- One call `navigation.navigate(screen, params)`. -/
structure NavCall where
  screen : String
  params : Params
deriving DecidableEq, Repr

/-- The argument a `FlatList` gives to `renderItem`. -/
structure ItemData (α : Type) where
  item : α
  index : Nat
deriving DecidableEq, Repr

/-- What the handlers and effects act on: the calls made so far, oldest first. -/
structure Env where
  /-- calls of `navigation.navigate` -/
  navigated : List NavCall
  /-- titles given to `navigation.setOptions` -/
  titles : List String
  /-- arguments of `console.log` -/
  console : List (ItemData Category)
deriving DecidableEq, Repr

/-- The fault of reading `property` from `undefined`. -/
inductive Fault where
  | typeError (property : String)
deriving DecidableEq, Repr

/-! ## JavaScript primitives used by the screens -/

/-- The call `navigation.navigate(screen, params)`. -/
def navigate (env : Env) (screen : String) (params : Params) : Env :=
  { env with navigated := env.navigated ++ [⟨screen, params⟩] }

/-- The call `navigation.setOptions({ title })`. -/
def setOptions (env : Env) (title : String) : Env :=
  { env with titles := env.titles ++ [title] }

/-- The call `console.log(itemData)`. -/
def consoleLog (env : Env) (itemData : ItemData Category) : Env :=
  { env with console := env.console ++ [itemData] }

/-- The comparison `a === b` of a string with a value that may be `undefined`. -/
def strictEq (a : String) (b : Option String) : Bool :=
  b == some a

/-- The property read `route.params.name`: `undefined` when the bag lacks it. -/
def getParam (route : Route) (name : String) : Option String :=
  route.params.lookup name

/-- The scan of `Array.prototype.indexOf`, `k` being the index of the head. -/
def indexOfFrom (v : Option String) : List String → Nat → Int
  | [], _ => -1
  | x :: rest, k => if strictEq x v then (k : Int) else indexOfFrom v rest (k + 1)

/-- The call `xs.indexOf(v)`: the first index holding `v`, or `-1`. -/
def indexOf (xs : List String) (v : Option String) : Int :=
  indexOfFrom v xs 0

/-- The property read `o.name`, which faults when `o` is `undefined`. -/
def readProp {α β : Type} (name : String) (field : α → β) : Option α → Except Fault β
  | some a => Except.ok (field a)
  | none => Except.error (Fault.typeError name)

/-- The props of a `FlatList`. -/
structure FlatList (α β : Type) where
  data : List α
  keyExtractor : α → String
  renderItem : ItemData α → β
  numColumns : Nat

/-- The items a `FlatList` renders: `renderItem` on every element with its index. -/
def FlatList.rendered {α β : Type} (l : FlatList α β) : List β :=
  l.data.enum.map (fun p => l.renderItem ⟨p.2, p.1⟩)

/-! ## CategoriesScreen.js -/

/-- The props given to `CategoryItem`. -/
structure CategoryItemProps where
  title : String
  id : String
  color : String
  onPress : Env → Env

/-- The function `renderCategoryItem`, with its `pressHandler`. -/
def renderCategoryItem (itemData : ItemData Category) : CategoryItemProps :=
  let pressHandler := fun (env : Env) =>
    let env := consoleLog env itemData
    navigate env itemData.item.title [("categoryId", itemData.item.id)]
  { title := itemData.item.title
    id := itemData.item.id
    color := itemData.item.color
    onPress := pressHandler }

/-- The component `CategoriesScreen`. -/
def CategoriesScreen (CATEGORIES : List Category) : FlatList Category CategoryItemProps :=
  { data := CATEGORIES
    keyExtractor := fun item => item.id
    renderItem := renderCategoryItem
    numColumns := 2 }

/-! ## MealListScreen.js -/

/-- The props given to `MealListItem`. -/
structure MealListItemProps where
  title : String
  imageUrl : String
  duration : Int
  complexity : String
  affordability : String
  onPress : Env → Env

/-- The function `renderMealItem`. -/
def renderMealItem (itemData : ItemData Meal) : MealListItemProps :=
  let item := itemData.item
  { title := item.title
    imageUrl := item.imageUrl
    duration := item.duration
    complexity := item.complexity
    affordability := item.affordability
    onPress := fun env => navigate env "MealDetail" [("mealId", item.id)] }

/-- The constant `categoryTitle` of the layout effect: `CATEGORIES.find(...).title`. -/
def categoryTitle (CATEGORIES : List Category) (catId : Option String) : Except Fault String :=
  readProp "title" Category.title (CATEGORIES.find? (fun category => strictEq category.id catId))

/-- The constant `displayedMeals`: the filter of `MEALS` by `catId`. -/
def displayedMeals (MEALS : List Meal) (catId : Option String) : List Meal :=
  MEALS.filter (fun mealItem => decide (indexOf mealItem.categoryIds catId ≥ 0))

/-- What one render of `MealListScreen` gives: the layout effect and the list. -/
structure MealListRender where
  effect : Env → Except Fault Env
  view : FlatList Meal MealListItemProps

/-- The component `MealListScreen`. -/
def MealListScreen (CATEGORIES : List Category) (MEALS : List Meal) (route : Route) :
    MealListRender :=
  let catId := getParam route "categoryId"
  { effect := fun env => do
      let categoryTitle ← categoryTitle CATEGORIES catId
      pure (setOptions env categoryTitle)
    view :=
      { data := displayedMeals MEALS catId
        keyExtractor := fun item => item.id
        renderItem := renderMealItem
        numColumns := 1 } }

/-! ## MealDetailScreen.js -/

/-- A child of a `Text` element. -/
inductive Child where
  | str (s : String)
  | num (n : Int)
deriving DecidableEq, Repr

/-- The element tree `MealDetailScreen` returns, by content. -/
structure MealDetailView where
  imageUri : String
  title : String
  duration : List Child
  complexity : String
  affordability : String
  /-- one `View` per ingredient: its key and its text -/
  ingredients : List (String × String)
  /-- one `View` per step: its key and its text -/
  steps : List (String × String)
deriving DecidableEq, Repr

/-- What one render of `MealDetailScreen` gives: the layout effect and the tree. -/
structure MealDetailRender where
  effect : Env → Env
  view : MealDetailView

/-- The constant `selectedMeal`: `MEALS.find` by `route.params.mealId`. -/
def selectedMeal (MEALS : List Meal) (route : Route) : Option Meal :=
  let mealId := getParam route "mealId"
  MEALS.find? (fun meal => strictEq meal.id mealId)

/-- The component `MealDetailScreen`. The first read of `selectedMeal` is
`selectedMeal.title` in the dependency array of `useLayoutEffect`, evaluated
while rendering. `toUpperCase` is `String.prototype.toUpperCase`. -/
def MealDetailScreen (toUpperCase : String → String) (MEALS : List Meal) (route : Route) :
    Except Fault MealDetailRender :=
  match selectedMeal MEALS route with
  | none => Except.error (Fault.typeError "title")
  | some selectedMeal =>
    Except.ok
      { effect := fun env => setOptions env selectedMeal.title
        view :=
          { imageUri := selectedMeal.imageUrl
            title := selectedMeal.title
            duration := [Child.num selectedMeal.duration, Child.str "m"]
            complexity := toUpperCase selectedMeal.complexity
            affordability := toUpperCase selectedMeal.affordability
            ingredients := selectedMeal.ingredients.map (fun ingredient => (ingredient, ingredient))
            steps := selectedMeal.steps.map (fun step => (step, step)) } }

/-! ## Navigation between the screens -/

/-- The three components. -/
inductive Screen where
  | Categories
  | MealList
  | MealDetail
deriving DecidableEq, Repr

/-- An environment in which nothing has been called yet. -/
def emptyEnv : Env := ⟨[], [], []⟩

/-- The `navigation.navigate` calls a handler makes when run once. -/
def callsOf (handler : Env → Env) : List NavCall :=
  (handler emptyEnv).navigated

/-- Every navigation call `CategoriesScreen` can make: those of the press
handlers of its rendered items. -/
def intentsOfCategories (CATEGORIES : List Category) : List NavCall :=
  (CategoriesScreen CATEGORIES).rendered.flatMap (fun props => callsOf props.onPress)

/-- Every navigation call `MealListScreen` can make for a route: those of its
layout effect and of the press handlers of its rendered items. -/
def intentsOfMealList (CATEGORIES : List Category) (MEALS : List Meal) (route : Route) :
    List NavCall :=
  let r := MealListScreen CATEGORIES MEALS route
  (match r.effect emptyEnv with
    | Except.ok env => env.navigated
    | Except.error _ => [])
  ++ r.view.rendered.flatMap (fun props => callsOf props.onPress)

/-- Every navigation call `MealDetailScreen` can make for a route: those of its
layout effect, the tree having no handler. -/
def intentsOfMealDetail (toUpperCase : String → String) (MEALS : List Meal) (route : Route) :
    List NavCall :=
  match MealDetailScreen toUpperCase MEALS route with
  | Except.ok r => callsOf r.effect
  | Except.error _ => []

/-- The navigation calls a screen issues, over all routes it may be given. -/
def issues (toUpperCase : String → String) (CATEGORIES : List Category) (MEALS : List Meal) :
    Screen → NavCall → Prop
  | Screen.Categories, call => call ∈ intentsOfCategories CATEGORIES
  | Screen.MealList, call => ∃ route, call ∈ intentsOfMealList CATEGORIES MEALS route
  | Screen.MealDetail, call => ∃ route, call ∈ intentsOfMealDetail toUpperCase MEALS route

/-- One navigation step: screen `s` issues a call whose destination name the
navigator's route table `routes` resolves to screen `t`. The route table is
configured outside the three screens. -/
def Step (routes : String → Option Screen) (toUpperCase : String → String)
    (CATEGORIES : List Category) (MEALS : List Meal) (s t : Screen) : Prop :=
  ∃ call, issues toUpperCase CATEGORIES MEALS s call ∧ routes call.screen = some t

/-- Position of a screen in the chain. -/
def Screen.rank : Screen → Nat
  | Screen.Categories => 0
  | Screen.MealList => 1
  | Screen.MealDetail => 2

/-! ## Fixtures -/

/-- A meal with the given id and category ids, other fields blank. -/
def mkMeal (id : String) (categoryIds : List String) : Meal :=
  { id := id, categoryIds := categoryIds, title := "", imageUrl := "", duration := 0,
    complexity := "", affordability := "", ingredients := [], steps := [] }

/-- The category of the scenario. -/
def italian : Category := ⟨"c1", "Italian", "#f5428d"⟩

/-- The route a screen receives after `navigation.navigate(_, { name: value })`. -/
def routeWith (name value : String) : Route := ⟨[(name, value)]⟩

/-- The route table of the scenario: `"Italian"` is the meal list,
`"MealDetail"` the detail screen, `"Categories"` the start. -/
def scenarioRoutes (name : String) : Option Screen :=
  if name = "Italian" then some Screen.MealList
  else if name = "MealDetail" then some Screen.MealDetail
  else if name = "Categories" then some Screen.Categories
  else none

/-! ## Lemmas on the primitives -/

theorem strictEq_some (a c : String) : strictEq a (some c) = true ↔ a = c := by
  unfold strictEq
  rw [beq_iff_eq]
  constructor
  · intro h
    exact (Option.some.inj h).symm
  · intro h
    rw [h]

theorem strictEq_none (a : String) : strictEq a none = false := by
  simp [strictEq]

theorem indexOfFrom_nonneg (v : Option String) (xs : List String) (k : Nat) :
    0 ≤ indexOfFrom v xs k ↔ ∃ x ∈ xs, strictEq x v = true := by
  induction xs generalizing k with
  | nil => simp [indexOfFrom]
  | cons x rest ih =>
    by_cases hx : strictEq x v = true
    · simp [indexOfFrom, hx]
    · simp [indexOfFrom, hx, ih]

theorem indexOf_nonneg (xs : List String) (c : String) :
    indexOf xs (some c) ≥ 0 ↔ c ∈ xs := by
  unfold indexOf
  rw [ge_iff_le, indexOfFrom_nonneg]
  constructor
  · rintro ⟨x, hx, he⟩
    rw [strictEq_some] at he
    exact he ▸ hx
  · intro h
    exact ⟨c, h, (strictEq_some c c).2 rfl⟩

theorem mem_displayedMeals (MEALS : List Meal) (c : String) (m : Meal) :
    m ∈ displayedMeals MEALS (some c) ↔ m ∈ MEALS ∧ c ∈ m.categoryIds := by
  simp [displayedMeals, indexOf_nonneg]

theorem getParam_routeWith (name value : String) :
    getParam (routeWith name value) name = some value := by
  simp [getParam, routeWith, List.lookup]

theorem MealListScreen_data (CATEGORIES : List Category) (MEALS : List Meal) (c : String) :
    (MealListScreen CATEGORIES MEALS (routeWith "categoryId" c)).view.data
      = displayedMeals MEALS (some c) := by
  simp [MealListScreen, getParam_routeWith]

/-! ## The list of meals of a category -/

/-- C1: the meals `MealListScreen` displays for category id `c` are exactly the
meals of `MEALS` whose `categoryIds` contains `c`; with meals `m1` (category ids
`["c1"]`) and `m2` (category ids `["c2"]`) the list for `"c1"` is `[m1]`. -/
theorem displayedMeals_sound_complete (CATEGORIES : List Category) (MEALS : List Meal)
    (c : String) :
    (∀ m, m ∈ (MealListScreen CATEGORIES MEALS (routeWith "categoryId" c)).view.data
        ↔ m ∈ MEALS ∧ c ∈ m.categoryIds)
    ∧ (MealListScreen CATEGORIES [mkMeal "m1" ["c1"], mkMeal "m2" ["c2"]]
        (routeWith "categoryId" "c1")).view.data = [mkMeal "m1" ["c1"]] := by
  refine ⟨fun m => ?_, ?_⟩
  · rw [MealListScreen_data, mem_displayedMeals]
  · rw [MealListScreen_data]
    decide

/-- C5: when no meal of `MEALS` has `c` among its `categoryIds`, the filter of
`MealListScreen` gives the empty list, as a value and without a fault. -/
theorem displayedMeals_empty (CATEGORIES : List Category) (MEALS : List Meal) (c : String)
    (h : ∀ m ∈ MEALS, c ∉ m.categoryIds) :
    displayedMeals MEALS (some c) = []
    ∧ (MealListScreen CATEGORIES MEALS (routeWith "categoryId" c)).view.data = [] := by
  have h0 : displayedMeals MEALS (some c) = [] := by
    rw [List.eq_nil_iff_forall_not_mem]
    intro m hm
    rw [mem_displayedMeals] at hm
    exact h m hm.1 hm.2
  exact ⟨h0, by rw [MealListScreen_data, h0]⟩

/-- C5, the scenario: with meals `m1` (category ids `["c1"]`) and `m2` (category
ids `["c2"]`), the list for `"c3"` is empty. -/
theorem displayedMeals_empty_witness :
    (∀ m ∈ [mkMeal "m1" ["c1"], mkMeal "m2" ["c2"]], "c3" ∉ m.categoryIds)
    ∧ displayedMeals [mkMeal "m1" ["c1"], mkMeal "m2" ["c2"]] (some "c3") = []
    ∧ (MealListScreen [italian] [mkMeal "m1" ["c1"], mkMeal "m2" ["c2"]]
        (routeWith "categoryId" "c3")).view.data = [] :=
  ⟨by simp [mkMeal],
   displayedMeals_empty [italian] [mkMeal "m1" ["c1"], mkMeal "m2" ["c2"]] "c3"
     (by simp [mkMeal])⟩

/-- C6: the meals `MealListScreen` displays are a subsequence of `MEALS`, so
they keep the order of `MEALS` and no meal occurs more often than in `MEALS`. -/
theorem displayedMeals_sublist (CATEGORIES : List Category) (MEALS : List Meal) (c : String) :
    List.Sublist (MealListScreen CATEGORIES MEALS (routeWith "categoryId" c)).view.data MEALS
    ∧ ∀ m, List.count m (MealListScreen CATEGORIES MEALS (routeWith "categoryId" c)).view.data
        ≤ List.count m MEALS := by
  rw [MealListScreen_data]
  have hs : List.Sublist (displayedMeals MEALS (some c)) MEALS := List.filter_sublist _
  exact ⟨hs, fun m => hs.count_le m⟩

/-! ## The press handlers -/

/-- C7: the `onPress` handler of every meal item `MealListScreen` renders makes
exactly one call, `navigation.navigate("MealDetail", { mealId: item.id })`, and
nothing else; for a meal with id `"m1"` the bag is `{ mealId: "m1" }`. -/
theorem mealItem_onPress (CATEGORIES : List Category) (MEALS : List Meal) (route : Route)
    (itemData : ItemData Meal) (env : Env) :
    ((MealListScreen CATEGORIES MEALS route).view.renderItem itemData).onPress env
      = { env with navigated :=
            env.navigated ++ [⟨"MealDetail", [("mealId", itemData.item.id)]⟩] }
    ∧ callsOf ((MealListScreen CATEGORIES MEALS route).view.renderItem itemData).onPress
      = [⟨"MealDetail", [("mealId", itemData.item.id)]⟩]
    ∧ callsOf (renderMealItem ⟨mkMeal "m1" ["c1"], 0⟩).onPress
      = [⟨"MealDetail", [("mealId", "m1")]⟩] := by
  refine ⟨rfl, rfl, rfl⟩

/-- C8: the press handler of every category item `CategoriesScreen` renders
calls `navigation.navigate` once, with the category title as destination and
the bag `{ categoryId: id }`; two categories with one id and two titles give
the same bag. -/
theorem categoryItem_onPress (CATEGORIES : List Category) (itemData : ItemData Category)
    (env : Env) (id title₁ title₂ color₁ color₂ : String) (i₁ i₂ : Nat) :
    (((CategoriesScreen CATEGORIES).renderItem itemData).onPress env).navigated
      = env.navigated ++ [⟨itemData.item.title, [("categoryId", itemData.item.id)]⟩]
    ∧ (callsOf ((CategoriesScreen CATEGORIES).renderItem ⟨⟨id, title₁, color₁⟩, i₁⟩).onPress).map
        NavCall.params
      = (callsOf ((CategoriesScreen CATEGORIES).renderItem ⟨⟨id, title₂, color₂⟩, i₂⟩).onPress).map
        NavCall.params
    ∧ (callsOf ((CategoriesScreen CATEGORIES).renderItem ⟨⟨id, title₁, color₁⟩, i₁⟩).onPress).map
        NavCall.params = [[("categoryId", id)]] := by
  refine ⟨rfl, rfl, rfl⟩

/-! ## Lookup by id -/

/-- With unique keys, `find` by the key of a member gives that member. -/
theorem find_of_nodup {α : Type} (key : α → String) (l : List α) (x : α) (hx : x ∈ l)
    (hn : (l.map key).Nodup) :
    l.find? (fun y => strictEq (key y) (some (key x))) = some x := by
  induction l with
  | nil => cases hx
  | cons y rest ih =>
    rw [List.map_cons, List.nodup_cons] at hn
    by_cases hyx : y = x
    · subst hyx
      exact List.find?_cons_of_pos _ ((strictEq_some _ _).2 rfl)
    · have hxr : x ∈ rest := by
        rcases List.mem_cons.1 hx with h | h
        · exact absurd h.symm hyx
        · exact h
      have hk : strictEq (key y) (some (key x)) = false := by
        rw [Bool.eq_false_iff, Ne, strictEq_some]
        intro he
        exact hn.1 (he ▸ List.mem_map_of_mem key hxr)
      rw [List.find?_cons]
      simp only [hk]
      exact ih hxr hn.2

/-- In every case `find` by the key of a member gives the first element with that key. -/
theorem find_first {α : Type} (key : α → String) (l : List α) (x : α) (hx : x ∈ l) :
    ∃ y, l.find? (fun z => strictEq (key z) (some (key x))) = some y ∧ key y = key x
      ∧ ∃ pre post, l = pre ++ y :: post ∧ ∀ z ∈ pre, key z ≠ key x := by
  cases h : l.find? (fun z => strictEq (key z) (some (key x))) with
  | none =>
    rw [List.find?_eq_none] at h
    exact absurd ((strictEq_some _ _).2 rfl) (h x hx)
  | some y =>
    rw [List.find?_eq_some] at h
    obtain ⟨hy, pre, post, hl, hpre⟩ := h
    refine ⟨y, rfl, (strictEq_some _ _).1 hy, pre, post, hl, fun z hz he => ?_⟩
    have := hpre z hz
    rw [(strictEq_some _ _).2 he] at this
    exact absurd this (by decide)

/-- No element has the key: `find` gives `undefined`. -/
theorem find_unknown {α : Type} (key : α → String) (l : List α) (id : String)
    (h : ∀ x ∈ l, key x ≠ id) :
    l.find? (fun y => strictEq (key y) (some id)) = none := by
  rw [List.find?_eq_none]
  intro x hx he
  exact h x hx ((strictEq_some _ _).1 he)

theorem selectedMeal_routeWith (MEALS : List Meal) (id : String) :
    selectedMeal MEALS (routeWith "mealId" id)
      = MEALS.find? (fun meal => strictEq meal.id (some id)) := by
  simp [selectedMeal, getParam_routeWith]

theorem MealListScreen_effect (CATEGORIES : List Category) (MEALS : List Meal) (c : String)
    (env : Env) :
    (MealListScreen CATEGORIES MEALS (routeWith "categoryId" c)).effect env
      = (categoryTitle CATEGORIES (some c)).map (setOptions env) := by
  simp only [MealListScreen, getParam_routeWith]
  cases categoryTitle CATEGORIES (some c) <;> rfl

/-- C2: with unique meal ids, the lookup of `MealDetailScreen` for the id of a
meal `m` of `MEALS` yields `m`: the render succeeds, the title set is `m.title`
and every field shown is that of `m`. -/
theorem mealById_found (toUpperCase : String → String) (MEALS : List Meal) (m : Meal)
    (hm : m ∈ MEALS) (huniq : (MEALS.map Meal.id).Nodup) :
    selectedMeal MEALS (routeWith "mealId" m.id) = some m
    ∧ ∃ r, MealDetailScreen toUpperCase MEALS (routeWith "mealId" m.id) = Except.ok r
      ∧ (∀ env, r.effect env = setOptions env m.title)
      ∧ r.view =
          { imageUri := m.imageUrl
            title := m.title
            duration := [Child.num m.duration, Child.str "m"]
            complexity := toUpperCase m.complexity
            affordability := toUpperCase m.affordability
            ingredients := m.ingredients.map (fun x => (x, x))
            steps := m.steps.map (fun x => (x, x)) } := by
  have hs : selectedMeal MEALS (routeWith "mealId" m.id) = some m := by
    rw [selectedMeal_routeWith]
    exact find_of_nodup Meal.id MEALS m hm huniq
  refine ⟨hs, ?_⟩
  unfold MealDetailScreen
  rw [hs]
  exact ⟨_, rfl, fun _ => rfl, rfl⟩

/-- C2 at the store of the scenario, looking up `m2`. -/
theorem mealById_found_witness :
    selectedMeal [mkMeal "m1" ["c1"], mkMeal "m2" ["c2"]] (routeWith "mealId" "m2")
      = some (mkMeal "m2" ["c2"])
    ∧ ∃ r, MealDetailScreen String.toUpper [mkMeal "m1" ["c1"], mkMeal "m2" ["c2"]]
          (routeWith "mealId" "m2") = Except.ok r
      ∧ (∀ env, r.effect env = setOptions env "")
      ∧ r.view =
          { imageUri := "", title := "", duration := [Child.num 0, Child.str "m"],
            complexity := String.toUpper "", affordability := String.toUpper "",
            ingredients := [], steps := [] } :=
  mealById_found String.toUpper [mkMeal "m1" ["c1"], mkMeal "m2" ["c2"]] (mkMeal "m2" ["c2"])
    (by decide) (by decide)

/-- C3: with unique category ids, the lookup of `MealListScreen` for the id of
a category `c` of `CATEGORIES` finds `c`, and the layout effect succeeds and
sets the screen title to `c.title`. -/
theorem categoryById_found (CATEGORIES : List Category) (MEALS : List Meal) (c : Category)
    (hc : c ∈ CATEGORIES) (huniq : (CATEGORIES.map Category.id).Nodup) (env : Env) :
    CATEGORIES.find? (fun category => strictEq category.id (some c.id)) = some c
    ∧ categoryTitle CATEGORIES (some c.id) = Except.ok c.title
    ∧ (MealListScreen CATEGORIES MEALS (routeWith "categoryId" c.id)).effect env
        = Except.ok (setOptions env c.title) := by
  have hf := find_of_nodup Category.id CATEGORIES c hc huniq
  have ht : categoryTitle CATEGORIES (some c.id) = Except.ok c.title := by
    unfold categoryTitle
    rw [hf]
    rfl
  refine ⟨hf, ht, ?_⟩
  rw [MealListScreen_effect, ht]
  rfl

/-- C3 at the store of the scenario. -/
theorem categoryById_found_witness :
    [italian].find? (fun category => strictEq category.id (some "c1")) = some italian
    ∧ categoryTitle [italian] (some "c1") = Except.ok "Italian"
    ∧ (MealListScreen [italian] [mkMeal "m1" ["c1"], mkMeal "m2" ["c2"]]
          (routeWith "categoryId" "c1")).effect emptyEnv
        = Except.ok (setOptions emptyEnv "Italian") :=
  categoryById_found [italian] [mkMeal "m1" ["c1"], mkMeal "m2" ["c2"]] italian
    (by decide) (by decide) emptyEnv

/-- C4 as stated fails: for ids of no record, the layout effect of
`MealListScreen` and the render of `MealDetailScreen` end in a `TypeError`. -/
theorem unknown_id_faults :
    (MealListScreen [italian] [mkMeal "m1" ["c1"], mkMeal "m2" ["c2"]]
        (routeWith "categoryId" "c3")).effect emptyEnv
      = Except.error (Fault.typeError "title")
    ∧ (∀ r, MealDetailScreen String.toUpper [mkMeal "m1" ["c1"], mkMeal "m2" ["c2"]]
        (routeWith "mealId" "m3") ≠ Except.ok r)
    ∧ ∃ f, MealDetailScreen String.toUpper [mkMeal "m1" ["c1"], mkMeal "m2" ["c2"]]
        (routeWith "mealId" "m3") = Except.error f := by
  refine ⟨rfl, ?_, ?_⟩
  · intro r h
    have hs : selectedMeal [mkMeal "m1" ["c1"], mkMeal "m2" ["c2"]] (routeWith "mealId" "m3")
        = none := by decide
    unfold MealDetailScreen at h
    rw [hs] at h
    cases h
  · have hs : selectedMeal [mkMeal "m1" ["c1"], mkMeal "m2" ["c2"]] (routeWith "mealId" "m3")
        = none := by decide
    unfold MealDetailScreen
    rw [hs]
    exact ⟨_, rfl⟩

/-- C4, amended: for an id of no record the two `find` calls give `undefined`,
and the screens read `.title` from it unguarded: the layout effect of
`MealListScreen` and the render of `MealDetailScreen` each end in the
`TypeError` of reading `title` from `undefined`. -/
theorem unknown_id_absent_then_typeError (toUpperCase : String → String)
    (CATEGORIES : List Category) (MEALS : List Meal) (id : String)
    (hc : ∀ c ∈ CATEGORIES, c.id ≠ id) (hm : ∀ m ∈ MEALS, m.id ≠ id) (env : Env) :
    CATEGORIES.find? (fun category => strictEq category.id (some id)) = none
    ∧ selectedMeal MEALS (routeWith "mealId" id) = none
    ∧ (MealListScreen CATEGORIES MEALS (routeWith "categoryId" id)).effect env
        = Except.error (Fault.typeError "title")
    ∧ MealDetailScreen toUpperCase MEALS (routeWith "mealId" id)
        = Except.error (Fault.typeError "title") := by
  have hf := find_unknown Category.id CATEGORIES id hc
  have hs : selectedMeal MEALS (routeWith "mealId" id) = none := by
    rw [selectedMeal_routeWith]
    exact find_unknown Meal.id MEALS id hm
  refine ⟨hf, hs, ?_, ?_⟩
  · rw [MealListScreen_effect]
    unfold categoryTitle
    rw [hf]
    rfl
  · unfold MealDetailScreen
    rw [hs]

/-- C4 amended, at the store of the scenario with the unknown id `"x9"`. -/
theorem unknown_id_absent_then_typeError_witness :
    [italian].find? (fun category => strictEq category.id (some "x9")) = none
    ∧ selectedMeal [mkMeal "m1" ["c1"], mkMeal "m2" ["c2"]] (routeWith "mealId" "x9") = none
    ∧ (MealListScreen [italian] [mkMeal "m1" ["c1"], mkMeal "m2" ["c2"]]
          (routeWith "categoryId" "x9")).effect emptyEnv
        = Except.error (Fault.typeError "title")
    ∧ MealDetailScreen String.toUpper [mkMeal "m1" ["c1"], mkMeal "m2" ["c2"]]
          (routeWith "mealId" "x9")
        = Except.error (Fault.typeError "title") :=
  unknown_id_absent_then_typeError String.toUpper [italian]
    [mkMeal "m1" ["c1"], mkMeal "m2" ["c2"]] "x9" (by decide) (by decide) emptyEnv

/-! ## From the list to the detail screen -/

/-- C10: for a meal `m` that `MealListScreen` displays for category id `c`, the
`onPress` handler of `m` makes one call, and `MealDetailScreen` given the bag
of that call looks up `m` itself when meal ids are unique; in every case it
looks up the first meal of `MEALS` with the id of `m`, never `undefined`. -/
theorem list_detail_roundtrip (CATEGORIES : List Category) (MEALS : List Meal) (c : String)
    (m : Meal) (i : Nat)
    (hm : m ∈ (MealListScreen CATEGORIES MEALS (routeWith "categoryId" c)).view.data) :
    ∃ call,
      callsOf ((MealListScreen CATEGORIES MEALS (routeWith "categoryId" c)).view.renderItem
        ⟨m, i⟩).onPress = [call]
      ∧ ((MEALS.map Meal.id).Nodup → selectedMeal MEALS ⟨call.params⟩ = some m)
      ∧ ∃ first, selectedMeal MEALS ⟨call.params⟩ = some first ∧ first.id = m.id
          ∧ ∃ pre post, MEALS = pre ++ first :: post ∧ ∀ z ∈ pre, z.id ≠ m.id := by
  rw [MealListScreen_data, mem_displayedMeals] at hm
  refine ⟨⟨"MealDetail", [("mealId", m.id)]⟩, rfl, ?_, ?_⟩
  · intro huniq
    show selectedMeal MEALS (routeWith "mealId" m.id) = some m
    rw [selectedMeal_routeWith]
    exact find_of_nodup Meal.id MEALS m hm.1 huniq
  · show ∃ first, selectedMeal MEALS (routeWith "mealId" m.id) = some first ∧ _
    rw [selectedMeal_routeWith]
    exact find_first Meal.id MEALS m hm.1

/-- C10 at a store where two meals share the id `"m1"`: selecting the second
one leads to the first. -/
theorem list_detail_roundtrip_witness :
    mkMeal "m1" ["c2"] ∈ (MealListScreen [italian] [mkMeal "m1" ["c1"], mkMeal "m1" ["c2"]]
        (routeWith "categoryId" "c2")).view.data
    ∧ ∃ call,
      callsOf ((MealListScreen [italian] [mkMeal "m1" ["c1"], mkMeal "m1" ["c2"]]
        (routeWith "categoryId" "c2")).view.renderItem ⟨mkMeal "m1" ["c2"], 0⟩).onPress = [call]
      ∧ ((([mkMeal "m1" ["c1"], mkMeal "m1" ["c2"]]).map Meal.id).Nodup →
          selectedMeal [mkMeal "m1" ["c1"], mkMeal "m1" ["c2"]] ⟨call.params⟩
            = some (mkMeal "m1" ["c2"]))
      ∧ ∃ first, selectedMeal [mkMeal "m1" ["c1"], mkMeal "m1" ["c2"]] ⟨call.params⟩ = some first
          ∧ first.id = (mkMeal "m1" ["c2"]).id
          ∧ ∃ pre post, [mkMeal "m1" ["c1"], mkMeal "m1" ["c2"]] = pre ++ first :: post
              ∧ ∀ z ∈ pre, z.id ≠ (mkMeal "m1" ["c2"]).id :=
  ⟨by decide,
   list_detail_roundtrip [italian] [mkMeal "m1" ["c1"], mkMeal "m1" ["c2"]] "c2"
     (mkMeal "m1" ["c2"]) 0 (by decide)⟩

/-! ## The navigation chain -/

theorem mem_intentsOfCategories (CATEGORIES : List Category) (call : NavCall)
    (h : call ∈ intentsOfCategories CATEGORIES) :
    ∃ c ∈ CATEGORIES, call = ⟨c.title, [("categoryId", c.id)]⟩ := by
  simp only [intentsOfCategories, FlatList.rendered, CategoriesScreen, List.mem_flatMap,
    List.mem_map] at h
  obtain ⟨props, ⟨p, hp, rfl⟩, hcall⟩ := h
  refine ⟨p.2, List.snd_mem_of_mem_enumFrom hp, ?_⟩
  simpa [callsOf, renderCategoryItem, navigate, consoleLog, emptyEnv] using hcall

theorem mem_intentsOfMealList (CATEGORIES : List Category) (MEALS : List Meal) (route : Route)
    (call : NavCall) (h : call ∈ intentsOfMealList CATEGORIES MEALS route) :
    ∃ m ∈ displayedMeals MEALS (getParam route "categoryId"),
      call = ⟨"MealDetail", [("mealId", m.id)]⟩ := by
  simp only [intentsOfMealList, List.mem_append] at h
  rcases h with h | h
  · exfalso
    simp only [MealListScreen] at h
    cases ht : categoryTitle CATEGORIES (getParam route "categoryId") with
    | error f =>
      simp [ht, bind, Except.bind] at h
    | ok t =>
      simp [ht, bind, Except.bind, pure, Except.pure, setOptions, emptyEnv] at h
  · simp only [FlatList.rendered, MealListScreen, List.mem_flatMap, List.mem_map] at h
    obtain ⟨props, ⟨p, hp, rfl⟩, hcall⟩ := h
    refine ⟨p.2, List.snd_mem_of_mem_enumFrom hp, ?_⟩
    simpa [callsOf, renderMealItem, navigate, emptyEnv] using hcall

theorem intentsOfMealDetail_nil (toUpperCase : String → String) (MEALS : List Meal)
    (route : Route) : intentsOfMealDetail toUpperCase MEALS route = [] := by
  unfold intentsOfMealDetail MealDetailScreen
  cases selectedMeal MEALS route <;> rfl

/-- C9 as stated fails: the call `CategoriesScreen` issues for the category
titled `"Italian"` has destination `"Italian"`, not `"MealList"`. -/
theorem categories_destination_is_title :
    intentsOfCategories [italian] = [⟨"Italian", [("categoryId", "c1")]⟩]
    ∧ ¬ ∀ call ∈ intentsOfCategories [italian], call.screen = "MealList" := by
  decide

/-- C9, amended: every call `CategoriesScreen` issues has the title of the
selected category as destination, every call `MealListScreen` issues has
destination `"MealDetail"`, and `MealDetailScreen` issues none; so under a
route table that registers `MealListScreen` under every category title and
`MealDetailScreen` under `"MealDetail"`, the steps between the screens are
only Categories → MealList and MealList → MealDetail, and there is no cycle. -/
theorem navigation_chain (routes : String → Option Screen) (toUpperCase : String → String)
    (CATEGORIES : List Category) (MEALS : List Meal)
    (hlist : ∀ c ∈ CATEGORIES, routes c.title = some Screen.MealList)
    (hdetail : routes "MealDetail" = some Screen.MealDetail) :
    (∀ call ∈ intentsOfCategories CATEGORIES,
        ∃ c ∈ CATEGORIES, call = ⟨c.title, [("categoryId", c.id)]⟩)
    ∧ (∀ route, ∀ call ∈ intentsOfMealList CATEGORIES MEALS route, call.screen = "MealDetail")
    ∧ (∀ route, intentsOfMealDetail toUpperCase MEALS route = [])
    ∧ (∀ s t, Step routes toUpperCase CATEGORIES MEALS s t →
        (s = Screen.Categories ∧ t = Screen.MealList)
        ∨ (s = Screen.MealList ∧ t = Screen.MealDetail))
    ∧ ∀ s, ¬ Relation.TransGen (Step routes toUpperCase CATEGORIES MEALS) s s := by
  have hshape : ∀ s t, Step routes toUpperCase CATEGORIES MEALS s t →
      (s = Screen.Categories ∧ t = Screen.MealList)
      ∨ (s = Screen.MealList ∧ t = Screen.MealDetail) := by
    rintro s t ⟨call, hissue, hroute⟩
    cases s with
    | Categories =>
      obtain ⟨c, hc, rfl⟩ := mem_intentsOfCategories CATEGORIES call hissue
      rw [hlist c hc] at hroute
      exact Or.inl ⟨rfl, (Option.some.inj hroute).symm⟩
    | MealList =>
      obtain ⟨route, hmem⟩ := hissue
      obtain ⟨m, _, rfl⟩ := mem_intentsOfMealList CATEGORIES MEALS route call hmem
      rw [hdetail] at hroute
      exact Or.inr ⟨rfl, (Option.some.inj hroute).symm⟩
    | MealDetail =>
      obtain ⟨route, hmem⟩ := hissue
      rw [intentsOfMealDetail_nil] at hmem
      cases hmem
  have hrank : ∀ s t, Relation.TransGen (Step routes toUpperCase CATEGORIES MEALS) s t →
      s.rank < t.rank := by
    intro s t h
    induction h with
    | single h1 =>
      rcases hshape _ _ h1 with ⟨rfl, rfl⟩ | ⟨rfl, rfl⟩ <;> decide
    | tail _ h2 ih =>
      rcases hshape _ _ h2 with ⟨rfl, rfl⟩ | ⟨rfl, rfl⟩
      · exact lt_trans ih (by decide)
      · exact lt_trans ih (by decide)
  refine ⟨mem_intentsOfCategories CATEGORIES, ?_, intentsOfMealDetail_nil toUpperCase MEALS,
    hshape, fun s h => lt_irrefl _ (hrank s s h)⟩
  intro route call hmem
  obtain ⟨m, _, rfl⟩ := mem_intentsOfMealList CATEGORIES MEALS route call hmem
  rfl

/-- C9 amended, at the store and route table of the scenario. -/
theorem navigation_chain_witness :
    (∀ c ∈ [italian], scenarioRoutes c.title = some Screen.MealList)
    ∧ scenarioRoutes "MealDetail" = some Screen.MealDetail
    ∧ (∀ call ∈ intentsOfCategories [italian],
        ∃ c ∈ [italian], call = ⟨c.title, [("categoryId", c.id)]⟩)
    ∧ (∀ route, ∀ call ∈ intentsOfMealList [italian] [mkMeal "m1" ["c1"], mkMeal "m2" ["c2"]]
        route, call.screen = "MealDetail")
    ∧ (∀ route, intentsOfMealDetail String.toUpper [mkMeal "m1" ["c1"], mkMeal "m2" ["c2"]]
        route = [])
    ∧ (∀ s t, Step scenarioRoutes String.toUpper [italian]
          [mkMeal "m1" ["c1"], mkMeal "m2" ["c2"]] s t →
        (s = Screen.Categories ∧ t = Screen.MealList)
        ∨ (s = Screen.MealList ∧ t = Screen.MealDetail))
    ∧ ∀ s, ¬ Relation.TransGen (Step scenarioRoutes String.toUpper [italian]
          [mkMeal "m1" ["c1"], mkMeal "m2" ["c2"]]) s s :=
  ⟨by decide, by decide,
   navigation_chain scenarioRoutes String.toUpper [italian]
     [mkMeal "m1" ["c1"], mkMeal "m2" ["c2"]] (by decide) (by decide)⟩

end MealsApp
